import Mathlib

/-!
Shallow embedding of the neopixel_lamp drivers.

Sources embedded here:
* `src/rotenc.h` / `src/rotenc.cpp` — rotary encoder counter, quadrature
  decoder lookup table, button click classifier;
* `src/neopixel.h` / `src/neopixel.cpp` — WS2812 pixel strip transmitter,
  modelled as the trace of events it emits (bits, latch waits, interrupt
  enable/disable calls);
* `src/hardware.h` — compile-time configuration constants.

C `int16_t` arithmetic is modelled over `Int` with an explicit wrap
`toInt16` applied exactly where the C code stores into an `int16_t`
field, and C unsigned 32-bit arithmetic with explicit `% 2 ^ 32`.
Truncating C integer division is `Int.tdiv`.
-/

set_option maxRecDepth 8192

/-! ## Constants from src/hardware.h -/

def HW_NEOPIXEL_ROWS : Nat := 8

def HW_NEOPIXEL_COLS : Nat := 4

def HW_NEOPIXEL_NUMBER : Nat := HW_NEOPIXEL_ROWS * HW_NEOPIXEL_COLS

def HW_NEOPIXEL_RES : Nat := 6000

def HW_ROTENC_CYCLES_PER_DETENT : Int := 4

def HW_BUTTON_SHORT_CLICK_MIN_TIME : Nat := 20

def HW_BUTTON_LONG_CLICK_MIN_TIME : Nat := 500

/-! ## int16 / uint32 machine arithmetic -/

/-- Wrap an integer into the `int16_t` range, the conversion the AVR target
performs whenever a wider value is stored into an `int16_t`. -/
def toInt16 (x : Int) : Int := (x + 32768) % 65536 - 32768

/-- Wrap a natural number into the `uint32_t` range (`millis()` values). -/
def toUInt32n (x : Nat) : Nat := x % 4294967296

/-! ## RotEnc state (src/rotenc.h, class RotEnc)

The fields of `class RotEnc` together with the function-local `static`
variables of its interrupt handlers, which persist across invocations and
are therefore part of the machine state. -/

inductive ButtonState
  | BUTTON_NONE
  | BUTTON_SHORT_CLICK
  | BUTTON_LONG_CLICK
deriving DecidableEq, Repr

structure RotEncState where
  counter : Int
  counterMinLimit : Int
  counterMaxLimit : Int
  counterWrap : Bool
  buttonState : ButtonState
  /-- `static uint8_t oldState` in `RotEnc::encoderInterruptHandler`. -/
  encOldState : Nat
  /-- `static bool oldButtonState` in `RotEnc::buttonInterruptHandler`. -/
  oldButtonState : Bool
  /-- `static uint32_t buttonPressTime` in `RotEnc::buttonInterruptHandler`. -/
  buttonPressTime : Nat
deriving DecidableEq, Repr

/-- `static const int16_t INT16_T_MIN` (src/rotenc.h line 71). -/
def INT16_T_MIN : Int := -32768

/-- `static const int16_t INT16_T_MAX` (src/rotenc.h line 72). -/
def INT16_T_MAX : Int := 32767

/-- `minLimitRange = INT16_T_MIN / HW_ROTENC_CYCLES_PER_DETENT + 1`
(src/rotenc.h line 73); C division truncates toward zero. -/
def minLimitRange : Int := INT16_T_MIN.tdiv HW_ROTENC_CYCLES_PER_DETENT + 1

/-- `maxLimitRange = INT16_T_MAX / HW_ROTENC_CYCLES_PER_DETENT - 1`
(src/rotenc.h line 74). -/
def maxLimitRange : Int := INT16_T_MAX.tdiv HW_ROTENC_CYCLES_PER_DETENT - 1

/-- `RotEnc::RotEnc()` (src/rotenc.cpp lines 16-22) together with the
initialisers of the handler-local `static` variables. -/
def rotEncInit : RotEncState :=
  { counter := 0
    counterMinLimit := minLimitRange
    counterMaxLimit := maxLimitRange
    counterWrap := false
    buttonState := .BUTTON_NONE
    encOldState := 0
    oldButtonState := true
    buttonPressTime := 0 }

/-- `RotEnc::setCounter` (src/rotenc.cpp lines 60-73).  Returns the C
`bool` result paired with the state after the call. -/
def setCounter (s : RotEncState) (counterValue minLimit maxLimit : Int)
    (wrap : Bool) : Bool × RotEncState :=
  if minLimit ≥ maxLimit then (false, s)
  else
    let minLimit := if minLimit < minLimitRange then minLimitRange else minLimit
    let maxLimit := if maxLimit > maxLimitRange then maxLimitRange else maxLimit
    let counterValue := if counterValue > maxLimit then maxLimit else counterValue
    let counterValue := if counterValue < minLimit then minLimit else counterValue
    (true,
      { s with
        counter := toInt16 (counterValue * HW_ROTENC_CYCLES_PER_DETENT)
        counterMinLimit := toInt16 (minLimit * HW_ROTENC_CYCLES_PER_DETENT)
        counterMaxLimit := toInt16 (maxLimit * HW_ROTENC_CYCLES_PER_DETENT)
        counterWrap := wrap })

/-- `RotEnc::getCounter` (src/rotenc.h lines 92-97): truncating division by
the sub-steps-per-detent multiplier. -/
def getCounter (s : RotEncState) : Int :=
  s.counter.tdiv HW_ROTENC_CYCLES_PER_DETENT

/-- `statesTable` (src/rotenc.h line 103). -/
def statesTable : List Int := [0, -1, 1, 0, 1, 0, 0, -1, -1, 0, 0, 1, 0, 1, -1, 0]

/-- The 2-bit sample read from the port: bit 1 = line B, bit 0 = line A
(src/rotenc.h line 107). -/
def encSample (pinA pinB : Bool) : Nat :=
  ((cond pinB 1 0) <<< 1) ||| cond pinA 1 0

/-- The new 4-bit history index after shifting in a sample
(src/rotenc.h lines 106-108). -/
def encNewState (old : Nat) (pinA pinB : Bool) : Nat :=
  ((old <<< 2) ||| encSample pinA pinB) &&& 0xf

/-- `RotEnc::encoderInterruptHandler` (src/rotenc.h lines 102-125),
parameterised by the two line levels read from the port. -/
def encoderInterruptHandler (s : RotEncState) (pinA pinB : Bool) : RotEncState :=
  let oldState := encNewState s.encOldState pinA pinB
  let increment := statesTable.getD oldState 0
  let p1 : Int × Int :=
    if s.counter = s.counterMaxLimit ∧ increment > 0 then
      (if s.counterWrap then s.counterMinLimit else s.counterMaxLimit, 0)
    else (s.counter, increment)
  let p2 : Int × Int :=
    if p1.1 = s.counterMinLimit ∧ p1.2 < 0 then
      (if s.counterWrap then s.counterMaxLimit else s.counterMinLimit, 0)
    else p1
  { s with counter := toInt16 (p2.1 + p2.2), encOldState := oldState }

/-- `RotEnc::buttonInterruptHandler` (src/rotenc.h lines 130-143),
parameterised by the button line level and the current `millis()` value. -/
def buttonInterruptHandler (s : RotEncState) (buttonPin : Bool) (now : Nat) :
    RotEncState :=
  let currentButtonState := buttonPin
  let pressTime :=
    if ¬currentButtonState ∧ s.oldButtonState then toUInt32n now
    else s.buttonPressTime
  let newButtonState :=
    if currentButtonState ∧ ¬s.oldButtonState then
      let buttonHoldTime :=
        (toUInt32n now + 4294967296 - toUInt32n pressTime) % 4294967296
      let bs1 :=
        if buttonHoldTime > HW_BUTTON_SHORT_CLICK_MIN_TIME then
          ButtonState.BUTTON_SHORT_CLICK
        else s.buttonState
      if buttonHoldTime > HW_BUTTON_LONG_CLICK_MIN_TIME then
        ButtonState.BUTTON_LONG_CLICK
      else bs1
    else s.buttonState
  { s with
    buttonPressTime := pressTime
    buttonState := newButtonState
    oldButtonState := currentButtonState }

/-- `RotEnc::getButtonState` (src/rotenc.h lines 153-159): read-and-clear. -/
def getButtonState (s : RotEncState) : ButtonState × RotEncState :=
  (s.buttonState, { s with buttonState := .BUTTON_NONE })

/-- Run the quadrature decoder over a sequence of line samples. -/
def runEnc (s : RotEncState) (samples : List (Bool × Bool)) : RotEncState :=
  samples.foldl (fun t p => encoderInterruptHandler t p.1 p.2) s

/-- The held duration the release edge computes:
`millis() - buttonPressTime` in uint32 arithmetic (src/rotenc.h line 138). -/
def heldDuration (s : RotEncState) (now : Nat) : Nat :=
  (toUInt32n now + 4294967296 - toUInt32n s.buttonPressTime) % 4294967296

/-! ## Reachability for the counter invariant

The states named by the invariant claim: the constructor state, states
after any `setCounter` call, and states after any sequence of
`encoderInterruptHandler` invocations.  `ReachableSafe` additionally
requires each `setCounter` call to keep the requested limits inside the
safe representable sub-range on the side the code does not clamp. -/

inductive Reachable : RotEncState → Prop
  | init : Reachable rotEncInit
  | setCnt {s : RotEncState} (v mn mx : Int) (w : Bool) :
      Reachable s → Reachable (setCounter s v mn mx w).2
  | enc {s : RotEncState} (a b : Bool) :
      Reachable s → Reachable (encoderInterruptHandler s a b)

inductive ReachableSafe : RotEncState → Prop
  | init : ReachableSafe rotEncInit
  | setCnt {s : RotEncState} (v mn mx : Int) (w : Bool) :
      ReachableSafe s → mn ≤ maxLimitRange → minLimitRange ≤ mx →
      ReachableSafe (setCounter s v mn mx w).2
  | enc {s : RotEncState} (a b : Bool) :
      ReachableSafe s → ReachableSafe (encoderInterruptHandler s a b)

/-- The counter invariant together with the representation bounds that make
it stable under the int16 wrap in `encoderInterruptHandler`. -/
def counterInv (s : RotEncState) : Prop :=
  s.counterMinLimit ≤ s.counter ∧ s.counter ≤ s.counterMaxLimit ∧
    -32768 ≤ s.counterMinLimit ∧ s.counterMaxLimit ≤ 32767

instance (s : RotEncState) : Decidable (counterInv s) := by
  unfold counterInv; infer_instance

/-! ## Neopixel transmitter (src/neopixel.h, src/neopixel.cpp)

The transmitter only drives the output line and manipulates the interrupt
flag, so it is embedded as the trace of events it emits, in order. -/

inductive NeoEvent
  | bit (b : Bool)
  | latchMicros (us : Nat)
  | intOff
  | intOn
deriving DecidableEq, Repr

/-- `Neopixel::sendBit` (src/neopixel.h lines 56-98): emits one bit on the
line. -/
def sendBitTrace (bitValue : Bool) : List NeoEvent := [.bit bitValue]

/-- The loop of `Neopixel::sendByte`: 8 iterations, each sending bit 7 of
the accumulator then shifting it left (uint8 wrap). -/
def sendByteLoop : Nat → Nat → List NeoEvent
  | 0, _ => []
  | n + 1, input =>
      sendBitTrace (Nat.testBit input 7) ++ sendByteLoop n ((input <<< 1) % 256)

/-- `Neopixel::sendByte` (src/neopixel.h lines 102-110). -/
def sendByteTrace (input : Nat) : List NeoEvent := sendByteLoop 8 input

/-- `Neopixel::sendRgb` (src/neopixel.h lines 116-121): green, then red,
then blue. -/
def sendRgbTrace (r g b : Nat) : List NeoEvent :=
  sendByteTrace g ++ sendByteTrace r ++ sendByteTrace b

/-- `Neopixel::show` (src/neopixel.h lines 124-128):
`delayMicroseconds(HW_NEOPIXEL_RES / 1000 + 1)`. -/
def showTrace : List NeoEvent := [.latchMicros (HW_NEOPIXEL_RES / 1000 + 1)]

/-- `Neopixel::setUniformColour` (src/neopixel.cpp lines 23-31): disables
interrupts, sends `HW_NEOPIXEL_NUMBER` identical triplets, waits the latch,
then executes its final interrupt call — which in the source is a second
`noInterrupts()`. -/
def setUniformColourTrace (r g b : Nat) : List NeoEvent :=
  NeoEvent.intOff ::
    ((List.replicate HW_NEOPIXEL_NUMBER (sendRgbTrace r g b)).flatten
      ++ showTrace ++ [NeoEvent.intOff])

/-- Modelled from the spec: `Neopixel::setFromArray` is declared in
src/neopixel.h line 36 but its body is not among the provided sources; the
spec states it "transmits per-pixel triplets from three equal-length
channel arrays; same blocking/latch behavior" as `setUniformColour`, so it
is given the same frame skeleton with per-position array elements. -/
def setFromArrayTrace (r g b : List Nat) : List NeoEvent :=
  NeoEvent.intOff ::
    (((List.range HW_NEOPIXEL_NUMBER).map
        (fun i => sendRgbTrace (r.getD i 0) (g.getD i 0) (b.getD i 0))).flatten
      ++ showTrace ++ [NeoEvent.intOff])

/-- Interrupt-enabled flag after executing a trace, starting from `en`. -/
def interruptsEnabledAfter (en : Bool) : List NeoEvent → Bool
  | [] => en
  | .intOff :: rest => interruptsEnabledAfter false rest
  | .intOn :: rest => interruptsEnabledAfter true rest
  | .bit _ :: rest => interruptsEnabledAfter en rest
  | .latchMicros _ :: rest => interruptsEnabledAfter en rest

/-- True when the interrupt-enabled flag is off after every event of the
trace (so in particular during every bit and the latch wait, and at the
end). -/
def interruptsOffThroughout (en : Bool) : List NeoEvent → Bool
  | [] => true
  | e :: rest =>
      !(interruptsEnabledAfter en [e]) &&
        interruptsOffThroughout (interruptsEnabledAfter en [e]) rest

/-- The non-`bit` events of a trace: interrupt discipline and latch waits. -/
def eventSkeleton (t : List NeoEvent) : List NeoEvent :=
  t.filter fun e =>
    match e with
    | .bit _ => false
    | _ => true

/-- MSB-first bit list of a byte: the ordering the spec mandates. -/
def byteBitsMSB (x : Nat) : List Bool :=
  [x.testBit 7, x.testBit 6, x.testBit 5, x.testBit 4,
   x.testBit 3, x.testBit 2, x.testBit 1, x.testBit 0]

/-- A backward (counter-decrementing) quadrature sample cycle: 2-bit line
states 01, 11, 10, 00 in sequence, as (line A, line B) levels. -/
def backCycle : List (Bool × Bool) :=
  [(true, false), (true, true), (false, true), (false, false)]

/-- `n` full backward detents worth of samples. -/
def backSteps (n : Nat) : List (Bool × Bool) := (List.replicate n backCycle).flatten

/-! ## Helper lemmas -/

theorem toInt16_eq_self {x : Int} (h1 : -32768 ≤ x) (h2 : x ≤ 32767) :
    toInt16 x = x := by
  unfold toInt16; omega

theorem minLimitRange_eq : minLimitRange = -8191 := by decide

theorem maxLimitRange_eq : maxLimitRange = 8190 := by decide

theorem statesTable_getD_bound (i : Nat) :
    -1 ≤ statesTable.getD i 0 ∧ statesTable.getD i 0 ≤ 1 := by
  by_cases h : i < 16
  · interval_cases i <;> decide
  · rw [List.getD_eq_default]
    · exact ⟨by decide, by decide⟩
    · simpa [statesTable] using Nat.le_of_not_lt h

theorem counterInv_init : counterInv rotEncInit := by decide

theorem counterInv_setCounter {s : RotEncState} {v mn mx : Int} {w : Bool}
    (hinv : counterInv s) (hmn : mn ≤ maxLimitRange) (hmx : minLimitRange ≤ mx) :
    counterInv (setCounter s v mn mx w).2 := by
  rw [maxLimitRange_eq] at hmn
  rw [minLimitRange_eq] at hmx
  obtain ⟨i1, i2, i3, i4⟩ := hinv
  unfold setCounter
  simp only [minLimitRange_eq, maxLimitRange_eq, HW_ROTENC_CYCLES_PER_DETENT]
  split_ifs <;>
    first
      | exact ⟨i1, i2, i3, i4⟩
      | (refine ⟨?_, ?_, ?_, ?_⟩ <;> (dsimp only; unfold toInt16; omega))

theorem counterInv_enc {s : RotEncState} (a b : Bool) (hinv : counterInv s) :
    counterInv (encoderInterruptHandler s a b) := by
  obtain ⟨i1, i2, i3, i4⟩ := hinv
  have hb := statesTable_getD_bound (encNewState s.encOldState a b)
  unfold encoderInterruptHandler counterInv
  simp only []
  split_ifs <;>
    (refine ⟨?_, ?_, ?_, ?_⟩ <;> (try simp only [toInt16]) <;> omega)

theorem counterInv_reachableSafe {s : RotEncState} (h : ReachableSafe s) :
    counterInv s := by
  induction h with
  | init => exact counterInv_init
  | setCnt v mn mx w _ hmn hmx ih => exact counterInv_setCounter ih hmn hmx
  | enc a b _ ih => exact counterInv_enc a b ih

/-! ## Claim C1 -/

/-- C1 counterexample: `setCounter(8191, 8191, 8192, false)` succeeds
(8191 < 8192), yet the resulting state — reachable from the constructor by
one `setCounter` call — has `counter = 32764 > counterMaxLimit = 32760`,
because the code clamps `maxLimit` down into the safe sub-range but never
clamps `minLimit` from above, and the final value clamp pushes the value
back above the clamped maximum. -/
theorem C1_counterexample :
    Reachable (setCounter rotEncInit 8191 8191 8192 false).2 ∧
    (setCounter rotEncInit 8191 8191 8192 false).1 = true ∧
    (setCounter rotEncInit 8191 8191 8192 false).2.counterMaxLimit <
      (setCounter rotEncInit 8191 8191 8192 false).2.counter :=
  ⟨Reachable.setCnt 8191 8191 8192 false Reachable.init, by decide, by decide⟩

/-- C1 (amended): for every state reachable from the constructor through
`setCounter` calls whose requested limits stay on the safe side of the
representable sub-range (`minLimit ≤ maxLimitRange` and
`maxLimit ≥ minLimitRange`) and arbitrary `encoderInterruptHandler`
invocations, the invariant `counterMinLimit ≤ counter ≤ counterMaxLimit`
holds. -/
theorem C1_invariant_safe {s : RotEncState} (h : ReachableSafe s) :
    s.counterMinLimit ≤ s.counter ∧ s.counter ≤ s.counterMaxLimit :=
  ⟨(counterInv_reachableSafe h).1, (counterInv_reachableSafe h).2.1⟩

theorem C1_invariant_safe_witness :
    (encoderInterruptHandler rotEncInit true false).counterMinLimit ≤
        (encoderInterruptHandler rotEncInit true false).counter ∧
      (encoderInterruptHandler rotEncInit true false).counter ≤
        (encoderInterruptHandler rotEncInit true false).counterMaxLimit :=
  C1_invariant_safe (ReachableSafe.enc true false ReachableSafe.init)

/-! ## Claim C3 -/

/-- C3: `setCounter` reports failure exactly when `minLimit ≥ maxLimit`,
and on failure the whole state (counter, limits, wrap flag) is unchanged. -/
theorem C3_setCounter_failure (s : RotEncState) (v mn mx : Int) (w : Bool) :
    ((setCounter s v mn mx w).1 = false ↔ mn ≥ mx) ∧
      (mn ≥ mx → (setCounter s v mn mx w).2 = s) := by
  by_cases h : mn ≥ mx
  · unfold setCounter
    rw [if_pos h]
    exact ⟨by simp [h], fun _ => rfl⟩
  · unfold setCounter
    rw [if_neg h]
    exact ⟨by simp [h], fun hc => absurd hc h⟩

theorem C3_setCounter_failure_witness :
    (setCounter rotEncInit 5 10 1 false).1 = false ∧
      (setCounter rotEncInit 5 10 1 false).2 = rotEncInit :=
  ⟨(C3_setCounter_failure rotEncInit 5 10 1 false).1.mpr (by decide),
    (C3_setCounter_failure rotEncInit 5 10 1 false).2 (by decide)⟩

/-! ## Claim C8 -/

/-- C8: `getButtonState` is read-and-clear — it returns the pending state,
resets it to `BUTTON_NONE`, and a second call with no intervening button
event returns `BUTTON_NONE`. -/
theorem C8_read_and_clear (s : RotEncState) :
    (getButtonState s).1 = s.buttonState ∧
      (getButtonState s).2.buttonState = ButtonState.BUTTON_NONE ∧
      (getButtonState (getButtonState s).2).1 = ButtonState.BUTTON_NONE :=
  ⟨rfl, rfl, rfl⟩

/-! ## Claim C4 -/

/-- C4: when the counter sits at `counterMaxLimit` and the looked-up
increment is positive, it jumps to `counterMinLimit` if `wrap` is set and
stays at `counterMaxLimit` otherwise (the increment zeroed); symmetrically
at `counterMinLimit` for a negative increment.  Concretely, after
`setCounter(0, -10, 10, false)` forty backward quadrature samples bring
`getCounter()` to −10, one further backward sample leaves it at −10, and
the same run with `wrap = true` moves it to 10. -/
theorem C4_limit_behaviour :
    (∀ (s : RotEncState) (a b : Bool),
      -32768 ≤ s.counterMinLimit → s.counterMinLimit ≤ s.counterMaxLimit →
      s.counterMaxLimit ≤ 32767 →
      s.counter = s.counterMaxLimit →
      0 < statesTable.getD (encNewState s.encOldState a b) 0 →
      (encoderInterruptHandler s a b).counter =
        if s.counterWrap then s.counterMinLimit else s.counterMaxLimit) ∧
    (∀ (s : RotEncState) (a b : Bool),
      -32768 ≤ s.counterMinLimit → s.counterMinLimit ≤ s.counterMaxLimit →
      s.counterMaxLimit ≤ 32767 →
      s.counter = s.counterMinLimit →
      statesTable.getD (encNewState s.encOldState a b) 0 < 0 →
      (encoderInterruptHandler s a b).counter =
        if s.counterWrap then s.counterMaxLimit else s.counterMinLimit) ∧
    getCounter (runEnc (setCounter rotEncInit 0 (-10) 10 false).2
      (backSteps 10)) = -10 ∧
    getCounter (runEnc (setCounter rotEncInit 0 (-10) 10 false).2
      (backSteps 10 ++ [(true, false)])) = -10 ∧
    getCounter (runEnc (setCounter rotEncInit 0 (-10) 10 true).2
      (backSteps 10 ++ [(true, false)])) = 10 := by
  refine ⟨?_, ?_, by decide, by decide, by decide⟩
  · intro s a b h1 h2 h3 hc hi
    unfold encoderInterruptHandler
    simp only []
    split_ifs <;> (try dsimp only at *) <;> (try simp only [toInt16] at *) <;>
      omega
  · intro s a b h1 h2 h3 hc hi
    unfold encoderInterruptHandler
    simp only []
    split_ifs <;> (try dsimp only at *) <;> (try simp only [toInt16] at *) <;>
      omega

theorem C4_limit_behaviour_witness :
    (encoderInterruptHandler (setCounter rotEncInit 10 (-10) 10 false).2
        false true).counter =
      if (setCounter rotEncInit 10 (-10) 10 false).2.counterWrap then
        (setCounter rotEncInit 10 (-10) 10 false).2.counterMinLimit
      else (setCounter rotEncInit 10 (-10) 10 false).2.counterMaxLimit :=
  C4_limit_behaviour.1 (setCounter rotEncInit 10 (-10) 10 false).2 false true
    (by decide) (by decide) (by decide) (by decide) (by decide)

/-! ## Claim C10 -/

/-- C10: for limits already inside the safe representable sub-range with
`minLimit < maxLimit`, `setCounter` succeeds and an immediate
`getCounter` returns exactly the requested value clamped into
`[minLimit, maxLimit]`: the scale-up by the sub-steps multiplier and the
truncating scale-down compose to the identity. -/
theorem C10_set_get_roundtrip (s : RotEncState) (v mn mx : Int) (w : Bool)
    (h1 : minLimitRange ≤ mn) (h2 : mx ≤ maxLimitRange) (h3 : mn < mx) :
    (setCounter s v mn mx w).1 = true ∧
      getCounter (setCounter s v mn mx w).2 = max mn (min v mx) := by
  rw [minLimitRange_eq] at h1
  rw [maxLimitRange_eq] at h2
  unfold setCounter
  rw [if_neg (show ¬(mn ≥ mx) by omega)]
  simp only [minLimitRange_eq, maxLimitRange_eq]
  rw [if_neg (show ¬(mn < -8191) by omega),
    if_neg (show ¬(mx > 8190) by omega)]
  refine ⟨by trivial, ?_⟩
  unfold getCounter
  dsimp only
  have hv : (if (if v > mx then mx else v) < mn then mn
      else if v > mx then mx else v) = max mn (min v mx) := by
    simp only [max_def, min_def]
    split_ifs <;> omega
  have hb1 : mn ≤ max mn (min v mx) := le_max_left _ _
  have hb2 : max mn (min v mx) ≤ mx := max_le h3.le (min_le_right _ _)
  rw [hv]
  generalize ht : max mn (min v mx) = t
  rw [ht] at hb1 hb2
  have hr : toInt16 (t * HW_ROTENC_CYCLES_PER_DETENT) =
      t * HW_ROTENC_CYCLES_PER_DETENT := by
    apply toInt16_eq_self <;> simp only [HW_ROTENC_CYCLES_PER_DETENT] <;> omega
  rw [hr]
  exact Int.mul_tdiv_cancel _ (by decide)

theorem C10_set_get_roundtrip_witness :
    (setCounter rotEncInit 25 (-100) 20 true).1 = true ∧
      getCounter (setCounter rotEncInit 25 (-100) 20 true).2 =
        max (-100) (min 25 20) :=
  C10_set_get_roundtrip rotEncInit 25 (-100) 20 true
    (by decide) (by decide) (by decide)


/-! ## Claim C7 -/

/-- C7: on a button release edge the handler computes the held duration as
release time minus recorded press time (uint32 arithmetic) and classifies
it: above the long-click threshold the pending state becomes
`BUTTON_LONG_CLICK`; above the short threshold but not the long one it
becomes `BUTTON_SHORT_CLICK`; at or below the short threshold the pending
state is left untouched (no event recorded). -/
theorem C7_button_release (s : RotEncState) (now : Nat)
    (hrel : s.oldButtonState = false) :
    (buttonInterruptHandler s true now).buttonState =
      (if HW_BUTTON_LONG_CLICK_MIN_TIME < heldDuration s now then
        ButtonState.BUTTON_LONG_CLICK
      else if HW_BUTTON_SHORT_CLICK_MIN_TIME < heldDuration s now then
        ButtonState.BUTTON_SHORT_CLICK
      else s.buttonState) ∧
    (heldDuration s now ≤ HW_BUTTON_SHORT_CLICK_MIN_TIME →
      (buttonInterruptHandler s true now).buttonState = s.buttonState) := by
  unfold buttonInterruptHandler heldDuration
    HW_BUTTON_SHORT_CLICK_MIN_TIME HW_BUTTON_LONG_CLICK_MIN_TIME
  simp [hrel]
  intro hd
  rw [if_neg (by omega), if_neg (by omega)]

theorem C7_button_release_witness :
    (buttonInterruptHandler
        { rotEncInit with oldButtonState := false, buttonPressTime := 100 }
        true 400).buttonState =
      (if HW_BUTTON_LONG_CLICK_MIN_TIME <
          heldDuration
            { rotEncInit with oldButtonState := false, buttonPressTime := 100 }
            400 then
        ButtonState.BUTTON_LONG_CLICK
      else if HW_BUTTON_SHORT_CLICK_MIN_TIME <
          heldDuration
            { rotEncInit with oldButtonState := false, buttonPressTime := 100 }
            400 then
        ButtonState.BUTTON_SHORT_CLICK
      else
        ({ rotEncInit with
            oldButtonState := false
            buttonPressTime := 100 } : RotEncState).buttonState) :=
  (C7_button_release
    { rotEncInit with oldButtonState := false, buttonPressTime := 100 }
    400 rfl).1

/-! ## Claim C9 -/

theorem glitch_table_zero :
    ∀ o, o < 16 → ∀ a b : Bool,
      (encSample a b = o &&& 3 ∨ (encSample a b) ^^^ (o &&& 3) = 3) →
      statesTable.getD (encNewState o a b) 0 = 0 := by decide

theorem enc_counter_of_zero (s : RotEncState) (a b : Bool)
    (h1 : -32768 ≤ s.counter) (h2 : s.counter ≤ 32767)
    (hz : statesTable.getD (encNewState s.encOldState a b) 0 = 0) :
    (encoderInterruptHandler s a b).counter = s.counter := by
  unfold encoderInterruptHandler
  simp only [hz]
  split_ifs <;> (try dsimp only at *) <;> (try simp only [toInt16] at *) <;>
    omega

/-- C9: in the 16-entry lookup table every index whose previous 2-bit
sample equals the current one, or whose samples differ in both bits, maps
to increment 0, and every nonzero entry (±1) sits at a legal single-bit
transition; consequently a no-change or double-step interrupt event leaves
the counter unchanged. -/
theorem C9_glitch_absorbed :
    (∀ i, i < 16 →
      ((i >>> 2 = (i &&& 3) ∨ (i >>> 2) ^^^ (i &&& 3) = 3) →
        statesTable.getD i 0 = 0) ∧
      (statesTable.getD i 0 ≠ 0 →
        ((i >>> 2) ^^^ (i &&& 3) = 1 ∨ (i >>> 2) ^^^ (i &&& 3) = 2) ∧
        (statesTable.getD i 0 = 1 ∨ statesTable.getD i 0 = -1))) ∧
    (∀ (s : RotEncState) (a b : Bool), s.encOldState < 16 →
      -32768 ≤ s.counter → s.counter ≤ 32767 →
      (encSample a b = s.encOldState &&& 3 ∨
        (encSample a b) ^^^ (s.encOldState &&& 3) = 3) →
      (encoderInterruptHandler s a b).counter = s.counter) := by
  refine ⟨by decide, ?_⟩
  intro s a b ho h1 h2 hg
  exact enc_counter_of_zero s a b h1 h2
    (glitch_table_zero s.encOldState ho a b hg)

theorem C9_glitch_absorbed_witness :
    (encoderInterruptHandler rotEncInit false false).counter =
      rotEncInit.counter :=
  C9_glitch_absorbed.2 rotEncInit false false (by decide) (by decide)
    (by decide) (Or.inl (by decide))

/-! ## Neopixel helper lemmas -/

theorem sendByte_msb :
    ∀ x, x < 256 → sendByteTrace x = (byteBitsMSB x).map NeoEvent.bit := by
  decide

theorem eventSkeleton_append (l1 l2 : List NeoEvent) :
    eventSkeleton (l1 ++ l2) = eventSkeleton l1 ++ eventSkeleton l2 := by
  unfold eventSkeleton
  exact List.filter_append _ _

theorem eventSkeleton_sendByteLoop (n x : Nat) :
    eventSkeleton (sendByteLoop n x) = [] := by
  induction n generalizing x with
  | zero => rfl
  | succ k ih =>
      rw [sendByteLoop, eventSkeleton_append, ih]
      rfl

theorem eventSkeleton_sendRgb (r g b : Nat) :
    eventSkeleton (sendRgbTrace r g b) = [] := by
  unfold sendRgbTrace sendByteTrace
  rw [eventSkeleton_append, eventSkeleton_append]
  rw [eventSkeleton_sendByteLoop, eventSkeleton_sendByteLoop,
    eventSkeleton_sendByteLoop]
  rfl

theorem eventSkeleton_flatten_nil (L : List (List NeoEvent))
    (h : ∀ l ∈ L, eventSkeleton l = []) : eventSkeleton L.flatten = [] := by
  induction L with
  | nil => rfl
  | cons hd tl ih =>
      rw [List.flatten_cons, eventSkeleton_append, h hd (by simp),
        ih fun l hl => h l (by simp [hl])]
      rfl

theorem eventSkeleton_setUniform (r g b : Nat) :
    eventSkeleton (setUniformColourTrace r g b) =
      [NeoEvent.intOff, NeoEvent.latchMicros (HW_NEOPIXEL_RES / 1000 + 1),
        NeoEvent.intOff] := by
  unfold setUniformColourTrace showTrace
  show NeoEvent.intOff :: eventSkeleton _ = _
  rw [eventSkeleton_append, eventSkeleton_append,
    eventSkeleton_flatten_nil _ fun l hl => by
      rw [List.eq_of_mem_replicate hl]
      exact eventSkeleton_sendRgb r g b]
  rfl

theorem eventSkeleton_setFromArray (r g b : List Nat) :
    eventSkeleton (setFromArrayTrace r g b) =
      [NeoEvent.intOff, NeoEvent.latchMicros (HW_NEOPIXEL_RES / 1000 + 1),
        NeoEvent.intOff] := by
  unfold setFromArrayTrace showTrace
  show NeoEvent.intOff :: eventSkeleton _ = _
  rw [eventSkeleton_append, eventSkeleton_append,
    eventSkeleton_flatten_nil _ fun l hl => by
      simp only [List.mem_map] at hl
      obtain ⟨i, _, rfl⟩ := hl
      exact eventSkeleton_sendRgb _ _ _]
  rfl

/-! ## Claim C2 -/

/-- C2 (code evaluation at the failing input): starting with interrupts
enabled, `setUniformColour(0, 0, 0)` keeps interrupts off after its first
event through the end of the trace — but the flag is still off after the
call returns, because the source ends the function with a second
`noInterrupts()` instead of `interrupts()` (src/neopixel.cpp line 29). -/
theorem C2_interrupts_not_reenabled :
    interruptsOffThroughout true (setUniformColourTrace 0 0 0) = true ∧
    interruptsEnabledAfter true (setUniformColourTrace 0 0 0) = false := by
  exact ⟨by decide, by decide⟩

/-! ## Claim C5 -/

/-- C5: `setUniformColour(r, g, b)` on the strip of `HW_NEOPIXEL_NUMBER`
pixels emits exactly that many repetitions of the triplet encoded as the
green byte, then the red byte, then the blue byte, each byte sent
most-significant bit first, followed by a single latch wait whose duration
in nanoseconds is at least `HW_NEOPIXEL_RES`. -/
theorem C5_uniform_frame (r g b : Nat) (hr : r < 256) (hg : g < 256)
    (hb : b < 256) :
    ∃ d, setUniformColourTrace r g b =
      NeoEvent.intOff ::
        ((List.replicate HW_NEOPIXEL_NUMBER
            ((byteBitsMSB g ++ byteBitsMSB r ++ byteBitsMSB b).map
              NeoEvent.bit)).flatten
          ++ [NeoEvent.latchMicros d, NeoEvent.intOff]) ∧
      HW_NEOPIXEL_RES ≤ d * 1000 := by
  refine ⟨HW_NEOPIXEL_RES / 1000 + 1, ?_, by decide⟩
  unfold setUniformColourTrace showTrace sendRgbTrace
  rw [sendByte_msb g hg, sendByte_msb r hr, sendByte_msb b hb]
  simp [List.map_append]

theorem C5_uniform_frame_witness :
    ∃ d, setUniformColourTrace 255 128 1 =
      NeoEvent.intOff ::
        ((List.replicate HW_NEOPIXEL_NUMBER
            ((byteBitsMSB 128 ++ byteBitsMSB 255 ++ byteBitsMSB 1).map
              NeoEvent.bit)).flatten
          ++ [NeoEvent.latchMicros d, NeoEvent.intOff]) ∧
      HW_NEOPIXEL_RES ≤ d * 1000 :=
  C5_uniform_frame 255 128 1 (by decide) (by decide) (by decide)

/-! ## Claim C6 -/

/-- C6 (against the spec-modelled transmitter): with each channel array at
least as long as the strip, `setFromArray` emits one green-red-blue
triplet per strip position taken from the three arrays, and its non-bit
event skeleton — the interrupt suspension and latch wait, i.e. the
blocking/latch behaviour — is exactly that of `setUniformColour`, the
latch being at least `HW_NEOPIXEL_RES` nanoseconds. -/
theorem C6_from_array (r g b : List Nat)
    (hr : HW_NEOPIXEL_NUMBER ≤ r.length) (hg : HW_NEOPIXEL_NUMBER ≤ g.length)
    (hb : HW_NEOPIXEL_NUMBER ≤ b.length) :
    ∃ d, setFromArrayTrace r g b =
      NeoEvent.intOff ::
        (((List.range HW_NEOPIXEL_NUMBER).map (fun i =>
            sendRgbTrace (r.getD i 0) (g.getD i 0) (b.getD i 0))).flatten
          ++ [NeoEvent.latchMicros d, NeoEvent.intOff]) ∧
      HW_NEOPIXEL_RES ≤ d * 1000 ∧
      eventSkeleton (setFromArrayTrace r g b) =
        eventSkeleton (setUniformColourTrace 0 0 0) := by
  refine ⟨HW_NEOPIXEL_RES / 1000 + 1, ?_, by decide, ?_⟩
  · unfold setFromArrayTrace showTrace
    simp
  · rw [eventSkeleton_setFromArray, eventSkeleton_setUniform]

theorem C6_from_array_witness :
    ∃ d, setFromArrayTrace (List.replicate 32 5) (List.replicate 32 6)
        (List.replicate 32 7) =
      NeoEvent.intOff ::
        (((List.range HW_NEOPIXEL_NUMBER).map (fun i =>
            sendRgbTrace ((List.replicate 32 5).getD i 0)
              ((List.replicate 32 6).getD i 0)
              ((List.replicate 32 7).getD i 0))).flatten
          ++ [NeoEvent.latchMicros d, NeoEvent.intOff]) ∧
      HW_NEOPIXEL_RES ≤ d * 1000 ∧
      eventSkeleton (setFromArrayTrace (List.replicate 32 5)
          (List.replicate 32 6) (List.replicate 32 7)) =
        eventSkeleton (setUniformColourTrace 0 0 0) :=
  C6_from_array (List.replicate 32 5) (List.replicate 32 6)
    (List.replicate 32 7) (by decide) (by decide) (by decide)
